import Mathlib

/-!
Shallow embedding of `conkit.h` (a single-header cross-platform console
library) and proofs of the specified properties.

The embedding follows the source:
* the Frame Buffer (`CK_SCREEN_BUFFER` with `CK_SCREEN_BUFFER_SIZE` /
  `CK_SCREEN_BUFFER_END`) becomes `CkState`: allocated size, the `END`
  counter, and the actual byte content held before the terminator;
* `ck_print`'s `while` growth loop becomes `ckGrow`;
* the sequence generator (`ck_rgb`, `ck_cursor_goto`, `ck_cursor_move`
  writing into the single `CK_SEQUENCE_BUFFER`) becomes explicit state
  passing over `SeqBufferState`, returning the one possible pointer value
  `CkView.seqBuffer`;
* the POSIX input functions (`getch`, `kbhit`) become transformers of a
  terminal state carrying the termios mode and the pending input stream;
* allocation failure (calloc/realloc returning NULL, followed by frees and
  `exit(EXIT_FAILURE)`) is modelled with a boolean allocation oracle and an
  outcome type recording which buffers were freed before termination.
-/

/-- `#define CK_ALLOC_SIZE 100` (the default, when not overridden). -/
def CK_ALLOC_SIZE : Nat := 100

/-- The Frame Buffer's state: `CK_SCREEN_BUFFER_SIZE` (allocated capacity),
`CK_SCREEN_BUFFER_END` (the counter maintained by `ck_print`), and the bytes
actually stored in `CK_SCREEN_BUFFER` before its terminator. -/
structure CkState where
  bufSize : Nat
  bufEnd : Nat
  content : List Char
deriving Repr, DecidableEq

/-- Frame-Buffer state right after `ck_init`: `CK_SCREEN_BUFFER_SIZE =
CK_ALLOC_SIZE`, `CK_SCREEN_BUFFER_END = 0`, buffer zeroed (empty content). -/
def ckInitState : CkState :=
  { bufSize := CK_ALLOC_SIZE, bufEnd := 0, content := [] }

/-- The growth loop of `ck_print`:
`while (END + len + 1 > SIZE) SIZE += CK_ALLOC_SIZE;`
here with `needed = END + len + 1`. -/
def ckGrow (needed size : Nat) : Nat :=
  if h : size < needed then ckGrow needed (size + CK_ALLOC_SIZE) else size
termination_by needed - size
decreasing_by simp only [CK_ALLOC_SIZE]; omega

/-- `ck_print(buffer)` (success path): with `len = strlen(buffer) + 1`, grow
`CK_SCREEN_BUFFER_SIZE` until `END + len + 1 ≤ SIZE`, add `len + 1` to
`CK_SCREEN_BUFFER_END`, reallocate (preserving content) and
`strcat` the argument onto the stored content. -/
def ck_print (s : List Char) (st : CkState) : CkState :=
  { bufSize := ckGrow (st.bufEnd + (s.length + 1) + 1) st.bufSize
    bufEnd := st.bufEnd + (s.length + 1) + 1
    content := st.content ++ s }

/-- `ck_flip()`: emits `printf("\033[H%s", CK_SCREEN_BUFFER)` — i.e. the bytes
`ESC [ H` followed by the stored content — then zeroes the whole buffer
(`memset`) and resets `CK_SCREEN_BUFFER_END` to 0. Returns the emitted bytes
together with the new state. -/
def ck_flip (st : CkState) : List Char × CkState :=
  ("\x1b[H".toList ++ st.content, { st with bufEnd := 0, content := [] })

/-- An operation performed on the Frame Buffer after `ck_init`. -/
inductive CkOp where
  | print (s : List Char)
  | flip
deriving Repr, DecidableEq

/-- One step of the Frame Buffer state machine. -/
def ckStep (st : CkState) (op : CkOp) : CkState :=
  match op with
  | .print s => ck_print s st
  | .flip => (ck_flip st).2

/-- Run a sequence of operations starting from an arbitrary state. -/
def ckRunFrom (st : CkState) (ops : List CkOp) : CkState :=
  ops.foldl ckStep st

/-- Run a sequence of operations starting right after `ck_init`. -/
def ckRun (ops : List CkOp) : CkState :=
  ckRunFrom ckInitState ops

/-- Run a sequence of `ck_print` appends starting right after `ck_init`. -/
def ckPrints (ss : List (List Char)) : CkState :=
  ckRun (ss.map .print)

-- Basic facts about the growth loop.

theorem ckGrow_of_le (needed size : Nat) (h : needed ≤ size) :
    ckGrow needed size = size := by
  unfold ckGrow
  simp [Nat.not_lt.mpr h]

theorem ckGrow_le_self (needed size : Nat) : size ≤ ckGrow needed size := by
  unfold ckGrow
  split
  · exact le_trans (by omega) (ckGrow_le_self needed (size + CK_ALLOC_SIZE))
  · exact le_rfl
termination_by needed - size
decreasing_by simp only [CK_ALLOC_SIZE]; omega

theorem ckGrow_sufficient (needed size : Nat) : needed ≤ ckGrow needed size := by
  unfold ckGrow
  split
  · exact ckGrow_sufficient needed (size + CK_ALLOC_SIZE)
  · omega
termination_by needed - size
decreasing_by simp only [CK_ALLOC_SIZE]; omega

theorem ckGrow_increments (needed size : Nat) :
    ∃ k : Nat, ckGrow needed size = size + k * CK_ALLOC_SIZE := by
  unfold ckGrow
  split
  · obtain ⟨k, hk⟩ := ckGrow_increments needed (size + CK_ALLOC_SIZE)
    exact ⟨k + 1, by rw [hk, Nat.add_mul, Nat.one_mul]; omega⟩
  · exact ⟨0, by omega⟩
termination_by needed - size
decreasing_by simp only [CK_ALLOC_SIZE]; omega

theorem ckGrow_minimal (needed size : Nat) :
    ckGrow needed size = size ∨ ckGrow needed size < needed + CK_ALLOC_SIZE := by
  unfold ckGrow
  split
  · right
    rcases ckGrow_minimal needed (size + CK_ALLOC_SIZE) with h | h
    · rw [h]; simp only [CK_ALLOC_SIZE] at *; omega
    · exact h
  · left; rfl
termination_by needed - size
decreasing_by simp only [CK_ALLOC_SIZE]; omega

-- Step lemmas for the Frame Buffer state machine.

theorem ckRunFrom_nil (st : CkState) : ckRunFrom st [] = st := rfl

theorem ckRunFrom_cons (st : CkState) (op : CkOp) (ops : List CkOp) :
    ckRunFrom st (op :: ops) = ckRunFrom (ckStep st op) ops := rfl

theorem ckStep_bufSize_mono (st : CkState) (op : CkOp) :
    st.bufSize ≤ (ckStep st op).bufSize := by
  cases op with
  | print s => exact ckGrow_le_self _ _
  | flip => exact le_rfl

theorem ckRunFrom_bufSize_mono (ops : List CkOp) :
    ∀ st : CkState, st.bufSize ≤ (ckRunFrom st ops).bufSize := by
  induction ops with
  | nil => intro st; exact le_rfl
  | cons op ops ih =>
      intro st
      exact le_trans (ckStep_bufSize_mono st op) (ih (ckStep st op))

/-- The inductive invariant of the Frame Buffer: the `END` counter never
exceeds capacity, capacity is positive, and the stored content (together with
one terminator byte) fits under the `END` counter. -/
def CkInv (st : CkState) : Prop :=
  st.bufEnd ≤ st.bufSize ∧ 1 ≤ st.bufSize ∧
    (st.content = [] ∧ st.bufEnd = 0 ∨ st.content.length + 1 ≤ st.bufEnd)

theorem ckInv_init : CkInv ckInitState := by
  refine ⟨?_, ?_, Or.inl ⟨rfl, rfl⟩⟩ <;> simp [ckInitState, CK_ALLOC_SIZE]

theorem ckInv_step (st : CkState) (op : CkOp) (h : CkInv st) :
    CkInv (ckStep st op) := by
  obtain ⟨h1, h2, h3⟩ := h
  cases op with
  | print s =>
      refine ⟨ckGrow_sufficient _ _, le_trans h2 (ckGrow_le_self _ _), Or.inr ?_⟩
      show (st.content ++ s).length + 1 ≤ st.bufEnd + (s.length + 1) + 1
      rw [List.length_append]
      rcases h3 with ⟨hc, _⟩ | hlen
      · rw [hc]; simp only [List.length_nil]; omega
      · omega
  | flip => exact ⟨Nat.zero_le _, h2, Or.inl ⟨rfl, rfl⟩⟩

theorem ckInv_run (ops : List CkOp) : CkInv (ckRun ops) := by
  have key : ∀ (l : List CkOp) (st : CkState), CkInv st → CkInv (ckRunFrom st l) := by
    intro l
    induction l with
    | nil => intro st h; exact h
    | cons op ops ih => intro st h; exact ih (ckStep st op) (ckInv_step st op h)
  exact key ops ckInitState ckInv_init

-- Accounting for sequences of appends.

theorem ckPrintsFrom_accounting (ss : List (List Char)) :
    ∀ st : CkState,
      (ckRunFrom st (ss.map .print)).bufEnd
          = st.bufEnd + (ss.map List.length).sum + 2 * ss.length ∧
      (ckRunFrom st (ss.map .print)).content = st.content ++ ss.flatten := by
  induction ss with
  | nil => intro st; simp [ckRunFrom]
  | cons s ss ih =>
      intro st
      obtain ⟨ih1, ih2⟩ := ih (ckStep st (.print s))
      constructor
      · rw [List.map_cons, ckRunFrom_cons, ih1]
        show st.bufEnd + (s.length + 1) + 1 + (ss.map List.length).sum + 2 * ss.length
            = st.bufEnd + (((s.length :: ss.map List.length)).sum) + 2 * (ss.length + 1)
        rw [List.sum_cons]
        omega
      · rw [List.map_cons, ckRunFrom_cons, ih2]
        show st.content ++ s ++ ss.flatten = st.content ++ (s :: ss).flatten
        rw [List.flatten_cons, List.append_assoc]

/-- C1 (counterexample): a single in-bounds append of `"hello"` leaves
`CK_SCREEN_BUFFER_END = 7`, not the appended length 5: `ck_print` adds
`strlen + 2` to the counter (`len = strlen + 1` and then `END += len + 1`),
so the counter does not equal the sum of the appended lengths. -/
theorem c1_counterexample_end_not_sum :
    (ckPrints ["hello".toList]).bufEnd
      ≠ (["hello".toList].map List.length).sum := by
  decide

/-- C1 (amended): after any sequence of `ck_print` appends following
`ck_init`, `CK_SCREEN_BUFFER_END` equals the sum of the appended lengths plus
2 for each append, while the actual content stored in the Frame Buffer has
length exactly the sum of the appended lengths. -/
theorem c1_amended_end_accounting (ss : List (List Char)) :
    (ckPrints ss).bufEnd = (ss.map List.length).sum + 2 * ss.length ∧
    (ckPrints ss).content.length = (ss.map List.length).sum := by
  obtain ⟨h1, h2⟩ := ckPrintsFrom_accounting ss ckInitState
  rw [ckPrints, ckRun] at *
  refine ⟨by rw [h1]; simp [ckInitState], by rw [h2]; simp [ckInitState]⟩

/-- C2: after `ck_init` and any sequence of `ck_print` / `ck_flip`
operations, the Frame Buffer's logical content length is strictly below its
capacity `CK_SCREEN_BUFFER_SIZE`, so one byte is always free for the
terminator. -/
theorem c2_length_lt_capacity (ops : List CkOp) :
    (ckRun ops).content.length < (ckRun ops).bufSize := by
  obtain ⟨h1, h2, h3⟩ := ckInv_run ops
  rcases h3 with ⟨hc, _⟩ | hlen
  · rw [hc]; simpa using h2
  · omega

/-- C3: after `ck_init`, appending `"hello"` then `" world"` with `ck_print`
and flushing with `ck_flip` emits exactly `"\x1b[H" ++ "hello world"`, and
afterwards the logical length is 0 (both the `END` counter and the content). -/
theorem c3_hello_world_scenario :
    (ck_flip (ckRun [.print "hello".toList, .print " world".toList])).1
        = ("\x1b[H" ++ "hello world").toList ∧
    (ck_flip (ckRun [.print "hello".toList, .print " world".toList])).2.bufEnd = 0 ∧
    (ck_flip (ckRun [.print "hello".toList, .print " world".toList])).2.content = [] :=
  ⟨by decide, rfl, rfl⟩

/-- C6: the Frame Buffer's capacity never decreases across any sequence of
operations; a single `ck_print` grows capacity by some number of
`CK_ALLOC_SIZE` increments, exactly enough to fit the required
`END + len + 1` bytes (one more increment would never be needed — not a
doubling policy), and the reallocation keeps the previous content as a
prefix. -/
theorem c6_capacity_growth (ops : List CkOp) (s : List Char) (st : CkState) :
    st.bufSize ≤ (ckRunFrom st ops).bufSize ∧
    (∃ k : Nat, (ck_print s st).bufSize = st.bufSize + k * CK_ALLOC_SIZE) ∧
    st.bufEnd + (s.length + 1) + 1 ≤ (ck_print s st).bufSize ∧
    ((ck_print s st).bufSize = st.bufSize ∨
      (ck_print s st).bufSize < st.bufEnd + (s.length + 1) + 1 + CK_ALLOC_SIZE) ∧
    st.content <+: (ck_print s st).content :=
  ⟨ckRunFrom_bufSize_mono ops st, ckGrow_increments _ _, ckGrow_sufficient _ _,
    ckGrow_minimal _ _, ⟨s, rfl⟩⟩

-- Console-size queries (`ck_current_console_size`, both backends).

/-- The source's `struct ck_console_size`. -/
structure CkConsoleSize where
  width : Nat
  height : Nat
  has_changed : Bool
deriving Repr, DecidableEq

/-- The comparison/update tail shared verbatim by the two implementations of
`ck_current_console_size`: set `has_changed` iff the OS-reported dimensions
differ from the retained `knownSize`, and in that case store the new
dimensions; the (updated) retained value is returned. -/
def ck_current_console_size (known : CkConsoleSize) (newWidth newHeight : Nat) :
    CkConsoleSize :=
  if newWidth ≠ known.width ∨ newHeight ≠ known.height then
    { width := newWidth, height := newHeight, has_changed := true }
  else
    { known with has_changed := false }

/-- Windows backend: dimensions computed from the console screen-buffer
window rectangle (`srWindow.Right - Left + 1`, `Bottom - Top + 1`), then the
shared comparison/update. -/
def ck_current_console_size_win (known : CkConsoleSize)
    (left right top bottom : Nat) : CkConsoleSize :=
  ck_current_console_size known (right - left + 1) (bottom - top + 1)

/-- Unix backend: dimensions from the `TIOCGWINSZ` ioctl (`ws_col`,
`ws_row`), then the shared comparison/update. -/
def ck_current_console_size_unix (known : CkConsoleSize)
    (wsCol wsRow : Nat) : CkConsoleSize :=
  ck_current_console_size known wsCol wsRow

/-- The initial retained value of both backends:
`static struct ck_console_size knownSize = {0, 0, 0};`. -/
def ckKnownSizeInit : CkConsoleSize :=
  { width := 0, height := 0, has_changed := false }

theorem ck_console_size_same (known : CkConsoleSize) (w h : Nat)
    (hw : w = known.width) (hh : h = known.height) :
    ck_current_console_size known w h = { known with has_changed := false } := by
  unfold ck_current_console_size
  simp [hw, hh]

theorem ck_console_size_diff (known : CkConsoleSize) (w h : Nat)
    (hne : ¬(w = known.width ∧ h = known.height)) :
    ck_current_console_size known w h
      = { width := w, height := h, has_changed := true } := by
  unfold ck_current_console_size
  rw [if_pos]
  tauto

theorem ck_console_size_dims (known : CkConsoleSize) (w h : Nat) :
    (ck_current_console_size known w h).width = w ∧
    (ck_current_console_size known w h).height = h := by
  unfold ck_current_console_size
  split
  · exact ⟨rfl, rfl⟩
  · next hcond => push_neg at hcond; exact ⟨hcond.1.symm, hcond.2.symm⟩

/-- C4: on both backends, a query reporting the retained dimensions returns
`has_changed = false` with the dimensions unchanged; a query reporting
different dimensions returns `has_changed = true` with the new dimensions and
updates the retained value — in particular a repeat query with an unchanged
OS report returns `has_changed = false`, and a second query with a different
report returns `has_changed = true` with the new values. -/
theorem c4_console_size_change_detection (known : CkConsoleSize)
    (w h w2 h2 left right top bottom : Nat) :
    (w = known.width ∧ h = known.height →
      ck_current_console_size_unix known w h = { known with has_changed := false }) ∧
    (¬(w = known.width ∧ h = known.height) →
      ck_current_console_size_unix known w h
        = { width := w, height := h, has_changed := true }) ∧
    (ck_current_console_size_unix
        (ck_current_console_size_unix known w h) w h).has_changed = false ∧
    (¬(w2 = w ∧ h2 = h) →
      ck_current_console_size_unix
          (ck_current_console_size_unix known w h) w2 h2
        = { width := w2, height := h2, has_changed := true }) ∧
    (right - left + 1 = known.width ∧ bottom - top + 1 = known.height →
      ck_current_console_size_win known left right top bottom
        = { known with has_changed := false }) ∧
    (¬(right - left + 1 = known.width ∧ bottom - top + 1 = known.height) →
      ck_current_console_size_win known left right top bottom
        = { width := right - left + 1, height := bottom - top + 1,
            has_changed := true }) ∧
    (ck_current_console_size_win
        (ck_current_console_size_win known left right top bottom)
        left right top bottom).has_changed = false := by
  obtain ⟨hw, hh⟩ := ck_console_size_dims known w h
  obtain ⟨hw2, hh2⟩ :=
    ck_console_size_dims known (right - left + 1) (bottom - top + 1)
  refine ⟨fun hsame => ck_console_size_same known w h hsame.1 hsame.2,
    fun hne => ck_console_size_diff known w h hne,
    ?_, fun hne => ?_,
    fun hsame => ck_console_size_same known _ _ hsame.1 hsame.2,
    fun hne => ck_console_size_diff known _ _ hne, ?_⟩
  · show (ck_current_console_size (ck_current_console_size known w h) w h).has_changed
        = false
    rw [ck_console_size_same _ _ _ hw.symm hh.symm]
  · show ck_current_console_size (ck_current_console_size known w h) w2 h2
        = { width := w2, height := h2, has_changed := true }
    refine ck_console_size_diff _ _ _ ?_
    rw [hw, hh]
    exact hne
  · show (ck_current_console_size
        (ck_current_console_size known (right - left + 1) (bottom - top + 1))
        (right - left + 1) (bottom - top + 1)).has_changed = false
    rw [ck_console_size_same _ _ _ hw2.symm hh2.symm]

/-- C4 witness: with retained size 80×24, a repeat report of 80×24 returns
`has_changed = false` unchanged, and a report of 100×30 returns
`has_changed = true` with the new dimensions. -/
theorem c4_console_size_witness :
    ck_current_console_size_unix ⟨80, 24, false⟩ 80 24 = ⟨80, 24, false⟩ ∧
    ck_current_console_size_unix ⟨80, 24, false⟩ 100 30 = ⟨100, 30, true⟩ ∧
    ck_current_console_size_win ⟨80, 24, false⟩ 2 81 1 24 = ⟨80, 24, false⟩ := by
  have h := c4_console_size_change_detection ⟨80, 24, false⟩ 80 24 0 0 2 81 1 24
  have h' := c4_console_size_change_detection ⟨80, 24, false⟩ 100 30 0 0 2 81 1 24
  exact ⟨h.1 ⟨rfl, rfl⟩, h'.2.1 (by decide), h.2.2.2.2.1 ⟨rfl, rfl⟩⟩

/-- C10: the retained size starts as `{0, 0, false}`, so the very first
query of an activation reports a change exactly when the OS reports a nonzero
width or height (with the new dimensions stored), and reports no change only
when the OS reports 0×0. -/
theorem c10_first_query_change (w h : Nat) :
    ((ck_current_console_size ckKnownSizeInit w h).has_changed = true
        ↔ w ≠ 0 ∨ h ≠ 0) ∧
    (¬(w = 0 ∧ h = 0) →
      ck_current_console_size ckKnownSizeInit w h
        = { width := w, height := h, has_changed := true }) ∧
    (w = 0 ∧ h = 0 →
      ck_current_console_size ckKnownSizeInit w h
        = { width := 0, height := 0, has_changed := false }) := by
  refine ⟨?_, fun hne => ck_console_size_diff _ _ _ hne, fun hz => ?_⟩
  · constructor
    · intro hchanged
      by_contra hcon
      push_neg at hcon
      have := ck_console_size_same ckKnownSizeInit w h hcon.1 hcon.2
      rw [this] at hchanged
      exact Bool.false_ne_true hchanged
    · intro hne
      have : ¬(w = ckKnownSizeInit.width ∧ h = ckKnownSizeInit.height) := by
        show ¬(w = 0 ∧ h = 0); tauto
      rw [ck_console_size_diff _ _ _ this]
  · rw [ck_console_size_same ckKnownSizeInit w h hz.1 hz.2]; rfl

/-- C10 witness: the first query reporting 80×24 yields `has_changed = true`
with the dimensions stored; a first query reporting 0×0 yields
`has_changed = false`. -/
theorem c10_first_query_witness :
    ck_current_console_size ckKnownSizeInit 80 24 = ⟨80, 24, true⟩ ∧
    ck_current_console_size ckKnownSizeInit 0 0 = ⟨0, 0, false⟩ := by
  have h80 := c10_first_query_change 80 24
  have h0 := c10_first_query_change 0 0
  exact ⟨h80.2.1 (by decide), h0.2.2 ⟨rfl, rfl⟩⟩

-- Sequence Generator (`CK_SEQUENCE_BUFFER` and the generated/literal forms).

/-- The bytes `sprintf(CK_SEQUENCE_BUFFER, "\033[%d;2;%d;%d;%dm", where,
r, g, b)` writes (decimal rendering of each field). -/
def ckRgbSeq (whereArg r g b : Nat) : String :=
  "\x1b[" ++ toString whereArg ++ ";2;" ++ toString r ++ ";"
    ++ toString g ++ ";" ++ toString b ++ "m"

/-- The bytes `sprintf(CK_SEQUENCE_BUFFER, "\033[%zu;%zuH", y, x)` writes —
the row `y` is rendered first. -/
def ckCursorGotoSeq (x y : Nat) : String :=
  "\x1b[" ++ toString y ++ ";" ++ toString x ++ "H"

/-- The bytes `sprintf(CK_SEQUENCE_BUFFER, "\033[%zu%c", amount, where)`
writes. -/
def ckCursorMoveSeq (dir : Char) (amount : Nat) : String :=
  "\x1b[" ++ toString amount ++ String.singleton dir

/-- The contents of the single shared `CK_SEQUENCE_BUFFER`. -/
structure SeqBufferState where
  seq : String
deriving Repr, DecidableEq

/-- The value a generated call returns: the address of `CK_SEQUENCE_BUFFER`.
Every generated call returns this same single pointer. -/
inductive CkView where
  | seqBuffer
deriving Repr, DecidableEq

/-- Read a previously returned view at the current point in time: the
pointer always designates the shared buffer, so it yields whatever that
buffer holds now. -/
def ckReadView : CkView → SeqBufferState → String
  | .seqBuffer, st => st.seq

/-- `CK_SEQUENCE_BUFFER` right after `ck_init`: zeroed (`calloc`), i.e. it
holds the empty string. -/
def ckSeqInit : SeqBufferState := { seq := "" }

/-- `ck_rgb(where, r, g, b)`: overwrite the shared buffer with the RGB
escape sequence and return `CK_SEQUENCE_BUFFER`. -/
def ck_rgb (whereArg r g b : Nat) (st : SeqBufferState) :
    CkView × SeqBufferState :=
  (.seqBuffer, { st with seq := ckRgbSeq whereArg r g b })

/-- `ck_cursor_goto(x, y)`: overwrite the shared buffer with the absolute
cursor-move sequence and return `CK_SEQUENCE_BUFFER`. -/
def ck_cursor_goto (x y : Nat) (st : SeqBufferState) :
    CkView × SeqBufferState :=
  (.seqBuffer, { st with seq := ckCursorGotoSeq x y })

/-- `ck_cursor_move(where, amount)`: overwrite the shared buffer with the
relative cursor-move sequence and return `CK_SEQUENCE_BUFFER`. -/
def ck_cursor_move (dir : Char) (amount : Nat) (st : SeqBufferState) :
    CkView × SeqBufferState :=
  (.seqBuffer, { st with seq := ckCursorMoveSeq dir amount })

/-- `#define ck_fg_rgb(r, g, b) ck_rgb(38, (r), (g), (b))`. -/
def ck_fg_rgb (r g b : Nat) : SeqBufferState → CkView × SeqBufferState :=
  ck_rgb 38 r g b

/-- `#define ck_bg_rgb(r, g, b) ck_rgb(48, (r), (g), (b))`. -/
def ck_bg_rgb (r g b : Nat) : SeqBufferState → CkView × SeqBufferState :=
  ck_rgb 48 r g b

/-- `#define ck_cursor_up(amount) ck_cursor_move('A', (amount))`. -/
def ck_cursor_up (amount : Nat) : SeqBufferState → CkView × SeqBufferState :=
  ck_cursor_move 'A' amount

/-- `#define ck_fg_rgb_l(r, g, b) "\033[38;2;" #r ";" #g ";" #b "m"`:
the stringized decimal literal of a numeral is its decimal rendering. -/
def ck_fg_rgb_l (r g b : Nat) : String :=
  "\x1b[38;2;" ++ toString r ++ ";" ++ toString g ++ ";" ++ toString b ++ "m"

/-- `#define ck_cursor_goto_l(x, y) "\033[" #y ";" #x "H"`. -/
def ck_cursor_goto_l (x y : Nat) : String :=
  "\x1b[" ++ toString y ++ ";" ++ toString x ++ "H"

/-- `#define ck_cursor_up_l(amount) "\033[" #amount "A"`. -/
def ck_cursor_up_l (amount : Nat) : String :=
  "\x1b[" ++ toString amount ++ "A"

/-- C5: generated and literal forms of the same operation with the same
parameters produce byte-identical sequences: `ck_cursor_goto(10, 5)` writes
`"\x1b[5;10H"` equal to `ck_cursor_goto_l(10, 5)`; `ck_fg_rgb(255, 0, 0)`
writes `"\x1b[38;2;255;0;0m"` equal to `ck_fg_rgb_l(255, 0, 0)`;
`ck_cursor_up(3)` writes `"\x1b[3A"` equal to `ck_cursor_up_l(3)`. -/
theorem c5_literal_generated_agree :
    ckReadView (ck_cursor_goto 10 5 ckSeqInit).1 (ck_cursor_goto 10 5 ckSeqInit).2
        = "\x1b[5;10H" ∧
    ck_cursor_goto_l 10 5 = "\x1b[5;10H" ∧
    ckReadView (ck_fg_rgb 255 0 0 ckSeqInit).1 (ck_fg_rgb 255 0 0 ckSeqInit).2
        = "\x1b[38;2;255;0;0m" ∧
    ck_fg_rgb_l 255 0 0 = "\x1b[38;2;255;0;0m" ∧
    ckReadView (ck_cursor_up 3 ckSeqInit).1 (ck_cursor_up 3 ckSeqInit).2
        = "\x1b[3A" ∧
    ck_cursor_up_l 3 = "\x1b[3A" := by
  refine ⟨?_, ?_, ?_, ?_, ?_, ?_⟩ <;> decide

/-- C7: every generated call writes into and returns the single shared
scratch buffer, so after two consecutive generated calls the first call's
returned view, read after the second call, holds the second call's sequence —
concretely, an `ck_fg_rgb(255,0,0)` result read after `ck_cursor_goto(10,5)`
holds the cursor sequence and no longer the RGB sequence. -/
theorem c7_scratch_aliasing (whereArg r g b x y : Nat) (st : SeqBufferState) :
    ckReadView (ck_rgb whereArg r g b st).1
        (ck_cursor_goto x y (ck_rgb whereArg r g b st).2).2
      = ckCursorGotoSeq x y ∧
    ckReadView (ck_cursor_goto x y st).1
        (ck_rgb whereArg r g b (ck_cursor_goto x y st).2).2
      = ckRgbSeq whereArg r g b ∧
    ckReadView (ck_fg_rgb 255 0 0 ckSeqInit).1
        (ck_cursor_goto 10 5 (ck_fg_rgb 255 0 0 ckSeqInit).2).2
      ≠ ckRgbSeq 38 255 0 0 := by
  exact ⟨rfl, rfl, by decide⟩

-- Raw-mode input (POSIX `getch` / `kbhit`).

/-- Model of `struct termios`: the `ECHO` and `ICANON` bits of `c_lflag`,
with the rest of the configuration abstracted into one field. -/
structure Termios where
  echo : Bool
  icanon : Bool
  other : Nat
deriving Repr, DecidableEq

/-- `ck_init`'s attribute computation: `CK_CONSOLE_SETTS =
CK_CONSOLE_ORIG_SETTS; CK_CONSOLE_SETTS.c_lflag &= ~ECHO & ~ICANON;` — the
baseline with echo and canonical (line-buffered) input cleared. -/
def ckRawSetts (orig : Termios) : Termios :=
  { orig with echo := false, icanon := false }

/-- Terminal-side state: the attributes currently installed (what
`tcsetattr(0, TCSANOW, ...)` last set) and the pending input characters. -/
structure TermState where
  mode : Termios
  input : List Char
deriving Repr, DecidableEq

/-- Result of one `getch()` call: the value read, the attributes in force
during the blocking `getchar()`, and the terminal state on return. -/
structure GetchResult where
  ret : Option Char
  modeDuringRead : Termios
  final : TermState
deriving Repr, DecidableEq

/-- `getch()`: `tcsetattr(0, TCSANOW, &CK_CONSOLE_SETTS)`, then
`ret = getchar()` — blocks until a character is pending and consumes exactly
that one — then `tcsetattr(0, TCSANOW, &CK_CONSOLE_ORIG_SETTS)` and return. -/
def getch (origSetts setts : Termios) (st : TermState) : GetchResult :=
  { ret := st.input.head?
    modeDuringRead := setts
    final := { mode := origSetts, input := st.input.tail } }

/-- `kbhit()`: `tcsetattr(raw)`, a zero-timeout `poll` of `STDIN_FILENO`,
`tcsetattr(orig)`, and return `revents & POLLIN` — whether input is pending,
consuming nothing. -/
def kbhit (origSetts setts : Termios) (st : TermState) : Bool × TermState :=
  (!st.input.isEmpty, { mode := origSetts, input := st.input })

/-- An input-side call made by the hosting application. -/
inductive CkKeyOp where
  | readCh
  | avail
deriving Repr, DecidableEq

/-- One input call as a transformer of the terminal state. -/
def ckKeyStep (origSetts setts : Termios) (st : TermState) : CkKeyOp → TermState
  | .readCh => (getch origSetts setts st).final
  | .avail => (kbhit origSetts setts st).2

theorem ckKeyRun_mode (origSetts setts : Termios) (ops : List CkKeyOp) :
    ∀ st : TermState, st.mode = origSetts →
      (ops.foldl (ckKeyStep origSetts setts) st).mode = origSetts := by
  induction ops with
  | nil => intro st h; exact h
  | cons op ops ih =>
      intro st _
      cases op with
      | readCh => exact ih _ rfl
      | avail => exact ih _ rfl

/-- C8: with the raw attributes derived from the baseline, `getch` installs a
no-echo, non-canonical mode for the span of its read, consumes exactly the
first pending character and returns it, and returns with the baseline
attributes re-installed; `kbhit` performs the same bracket with a zero-wait
poll, reporting whether input is pending without consuming any of it; hence
across any sequence of such calls the ambient mode outside a call is always
the baseline captured at `ck_init`. -/
theorem c8_raw_mode_bracket (orig : Termios) (st : TermState) (c : Char)
    (cs : List Char) (ops : List CkKeyOp) :
    (getch orig (ckRawSetts orig) st).final.mode = orig ∧
    (getch orig (ckRawSetts orig) st).modeDuringRead.echo = false ∧
    (getch orig (ckRawSetts orig) st).modeDuringRead.icanon = false ∧
    (st.input = c :: cs →
      (getch orig (ckRawSetts orig) st).ret = some c ∧
      (getch orig (ckRawSetts orig) st).final.input = cs) ∧
    (kbhit orig (ckRawSetts orig) st).2 = { mode := orig, input := st.input } ∧
    ((kbhit orig (ckRawSetts orig) st).1 = true ↔ st.input ≠ []) ∧
    (st.mode = orig →
      (ops.foldl (ckKeyStep orig (ckRawSetts orig)) st).mode = orig) := by
  refine ⟨rfl, rfl, rfl, fun hin => ?_, rfl, ?_, ckKeyRun_mode orig _ ops st⟩
  · rw [show (getch orig (ckRawSetts orig) st).ret = st.input.head? from rfl,
      show (getch orig (ckRawSetts orig) st).final.input = st.input.tail from rfl,
      hin]
    exact ⟨rfl, rfl⟩
  · rw [show (kbhit orig (ckRawSetts orig) st).1 = !st.input.isEmpty from rfl]
    cases st.input <;> simp

/-- C8 witness: from baseline `{echo := true, icanon := true, other := 7}`
with pending input `['q']`, `getch` returns `'q'` leaving no input and the
baseline mode, `kbhit` reports pending input without consuming it, and after
a `getch` followed by a `kbhit` the ambient mode is the baseline. -/
theorem c8_raw_mode_witness :
    (getch ⟨true, true, 7⟩ (ckRawSetts ⟨true, true, 7⟩)
        ⟨⟨true, true, 7⟩, ['q']⟩).ret = some 'q' ∧
    (getch ⟨true, true, 7⟩ (ckRawSetts ⟨true, true, 7⟩)
        ⟨⟨true, true, 7⟩, ['q']⟩).final.input = [] ∧
    ([CkKeyOp.readCh, CkKeyOp.avail].foldl
        (ckKeyStep ⟨true, true, 7⟩ (ckRawSetts ⟨true, true, 7⟩))
        ⟨⟨true, true, 7⟩, ['q']⟩).mode = ⟨true, true, 7⟩ := by
  have h := c8_raw_mode_bracket ⟨true, true, 7⟩ ⟨⟨true, true, 7⟩, ['q']⟩ 'q' []
    [CkKeyOp.readCh, CkKeyOp.avail]
  exact ⟨(h.2.2.2.1 rfl).1, (h.2.2.2.1 rfl).2, h.2.2.2.2.2.2 rfl⟩

-- Allocation-failure paths (`ck_init` calloc failures, `ck_print` realloc
-- failure).

/-- The two heap buffers the library owns. -/
inductive CkBuffer where
  | screenBuffer
  | sequenceBuffer
deriving Repr, DecidableEq

/-- Outcome of an operation that can hit an allocation failure: the new
Frame-Buffer state, or termination via `exit(EXIT_FAILURE)` recording which
buffers were `free`d first. -/
inductive CkOutcome where
  | ok (st : CkState)
  | fatal (freed : List CkBuffer)
deriving Repr, DecidableEq

/-- `ck_init` (either backend) with an allocation oracle for its two `calloc`
calls. If the `CK_SCREEN_BUFFER` allocation fails: `perror` then
`exit(EXIT_FAILURE)` with nothing freed. If the `CK_SEQUENCE_BUFFER`
allocation fails: `perror` then `exit(EXIT_FAILURE)` — the already-allocated
screen buffer is not freed either. Otherwise both buffers are set up. -/
def ck_init (screenAllocOk seqAllocOk : Bool) : CkOutcome :=
  if !screenAllocOk then .fatal []
  else if !seqAllocOk then .fatal []
  else .ok ckInitState

/-- `ck_print` with an allocation oracle for its `realloc`: on failure,
`perror`, `free(CK_SCREEN_BUFFER)`, `free(CK_SEQUENCE_BUFFER)`,
`exit(EXIT_FAILURE)`; on success the append completes. -/
def ckPrintAlloc (reallocOk : Bool) (s : List Char) (st : CkState) :
    CkOutcome :=
  if reallocOk then .ok (ck_print s st)
  else .fatal [.screenBuffer, .sequenceBuffer]

/-- C9 (counterexample): when the `CK_SEQUENCE_BUFFER` allocation in
`ck_init` fails, the process terminates without freeing the already-allocated
Frame Buffer — not the claimed release of both owned buffers. -/
theorem c9_counterexample_init_no_release :
    ck_init true false = CkOutcome.fatal [] ∧
    CkOutcome.fatal ([] : List CkBuffer)
      ≠ CkOutcome.fatal [CkBuffer.screenBuffer, CkBuffer.sequenceBuffer] :=
  ⟨rfl, by decide⟩

/-- C9 (amended): a failed growth reallocation in `ck_print` frees both owned
buffers and terminates the process; a failed initial allocation in `ck_init`
terminates the process immediately without freeing anything; in every case
the outcome is termination — the failure is neither retried nor surfaced to
the caller as a return value. -/
theorem c9_amended_fatal_paths (s : List Char) (st : CkState) (b : Bool) :
    ckPrintAlloc false s st
        = CkOutcome.fatal [CkBuffer.screenBuffer, CkBuffer.sequenceBuffer] ∧
    ck_init false b = CkOutcome.fatal [] ∧
    ck_init true false = CkOutcome.fatal [] ∧
    ckPrintAlloc true s st = CkOutcome.ok (ck_print s st) :=
  ⟨rfl, rfl, rfl, rfl⟩
